import Mathlib

/-
Verification of the PSNZ image-entries processor (src/imageprocessor.py)
against its specification.

Strings from the Python program are modelled as `List Char`; byte strings
as `List Nat`.  The record-processing pipeline (`ImageProcessorThread`)
is embedded as pure Lean functions; the effectful operations of a record
(HTTP fetch, image decode, disk writes) are supplied by a per-record
environment `RecEnv` that fixes what each operation would have done,
including which Python exception (if any) it raises.  Python exception
propagation is modelled with `Except PyExn`; the program's `try/except`
blocks become explicit handlers, mirroring their nesting in the source.
-/

set_option maxRecDepth 4000

namespace PSNZ

/-- listStarts p s is true when p is an initial segment of s
(Python str.startswith / bytes.startswith). -/
def listStarts {α : Type} [DecidableEq α] : List α → List α → Bool
  | [], _ => true
  | _ :: _, [] => false
  | a :: as, b :: bs => a = b && listStarts as bs

/-- natToCharsCore fuel n acc renders n in decimal in front of acc;
fuel bounds the recursion depth (fuel = n + 1 always suffices). -/
def natToCharsCore : Nat → Nat → List Char → List Char
  | 0, _, acc => acc
  | fuel + 1, n, acc =>
    let d := Char.ofNat (48 + n % 10)
    if n < 10 then d :: acc else natToCharsCore fuel (n / 10) (d :: acc)

/-- natToChars n is the decimal rendering of n, as Python str(n). -/
def natToChars (n : Nat) : List Char := natToCharsCore (n + 1) n []

/-- isBadChar c is true for the characters of the main substitution set
of line 186, the regex class backslash / : * ? < > vertical-bar. -/
def isBadChar (c : Char) : Bool :=
  c = '\\' || c = '/' || c = ':' || c = '*' || c = '?' || c = '<' || c = '>' || c = '|'

/-- stripQuotes models line 185: filename = original_filename.replace(quote, empty). -/
def stripQuotes (s : List Char) : List Char := s.filter (fun c => c ≠ '"')

/-- replaceBad models the re.sub of line 186: each character of the class
is replaced by an underscore. -/
def replaceBad (s : List Char) : List Char :=
  s.map (fun c => if isBadChar c then '_' else c)

/-- sanitize is the sanitization step of process_image lines 185 to 186
with sequencing disabled: strip embedded double quotes, then substitute
the invalid characters. -/
def sanitize (s : List Char) : List Char := replaceBad (stripQuotes s)

/-- SeqState models self.sequence_dict: the per-identifier sequence
counters, as an association list keyed by the digit prefix. -/
abbrev SeqState : Type := List (List Char × Nat)

/-- lookupSeq is dictionary lookup in the sequence table. -/
def lookupSeq : SeqState → List Char → Option Nat
  | [], _ => none
  | (k, v) :: rest, key => if k = key then some v else lookupSeq rest key

/-- updateSeq is dictionary update (insert or overwrite) in the sequence table. -/
def updateSeq : SeqState → List Char → Nat → SeqState
  | [], key, v => [(key, v)]
  | (k, v0) :: rest, key, v =>
    if k = key then (key, v) :: rest else (k, v0) :: updateSeq rest key v

/-- matchIdRest models re.match of a caret, a group of one or more digits,
a group of dot-star, and a dollar, on line 130.  The digit group is greedy,
dot does not cross a newline, and the dollar also matches just before one
final newline; hence the match succeeds exactly when the name begins with a
digit and any newline it contains is a single trailing one, which is then
left out of the captured rest.  (Python's digit class also accepts non-ASCII
decimal digits; the embedding reads it as ASCII 0 to 9.) -/
def matchIdRest (s : List Char) : Option (List Char × List Char) :=
  let ds := s.takeWhile Char.isDigit
  let rest := s.dropWhile Char.isDigit
  if ds.isEmpty then none
  else if rest.contains '\n' then
    match rest.reverse with
    | '\n' :: rrev => if rrev.contains '\n' then none else some (ds, rrev.reverse)
    | _ => none
  else some (ds, rest)

/-- rsplitDot models rest.rsplit(dot, 1) on line 139: some (before, after)
when rest contains a dot, splitting at the last one. -/
def rsplitDot (l : List Char) : Option (List Char × List Char) :=
  if l.contains '.' then
    let afterRev := l.reverse.takeWhile (fun c => c ≠ '.')
    some (((l.reverse.drop (afterRev.length + 1)).reverse), afterRev.reverse)
  else none

/-- stripDashSpace models .lstrip of a dash and a space (lines 141, 143). -/
def stripDashSpace (l : List Char) : List Char :=
  l.dropWhile (fun c => c = '-' || c = ' ')

/-- padIdWithSequence models pad_id_with_sequence (lines 125 to 145),
threading the sequence dictionary explicitly.  Returns the derived name
and the updated dictionary. -/
def padIdWithSequence (addSequence : Bool) (st : SeqState) (filename : List Char) :
    List Char × SeqState :=
  if !addSequence then (filename, st)
  else
    match matchIdRest filename with
    | none => (filename, st)
    | some (idNum, rest) =>
      let seqNum := (lookupSeq st idNum).getD 1
      let st' := updateSeq st idNum (seqNum + 1)
      match rsplitDot rest with
      | some (title, ext) =>
        (idNum ++ '-' :: natToChars seqNum ++ ' ' :: stripDashSpace title ++ '.' :: ext, st')
      | none =>
        (idNum ++ '-' :: natToChars seqNum ++ ' ' :: stripDashSpace rest, st')

/-- deriveFilename is the filename derivation of process_image lines 183
to 186: strip quotes, apply sequencing, substitute invalid characters. -/
def deriveFilename (addSequence : Bool) (st : SeqState) (original : List Char) :
    List Char × SeqState :=
  let f1 := stripQuotes original
  let ps := padIdWithSequence addSequence st f1
  (replaceBad ps.1, ps.2)

/-- PImage models a decoded PIL image: its mode string, pixel dimensions,
and embedded exif tags (tag name to value). -/
structure PImage where
  mode : List Char
  width : Nat
  height : Nat
  exifTags : List (List Char × List Char)
deriving DecidableEq

/-- ExnClass distinguishes the Python exception classes the program's
handlers discriminate on: requests RequestException (a subclass of
OSError alias IOError), other IOError instances, and every other
Exception subclass. -/
inductive ExnClass where
  | requestExc
  | ioErr
  | otherExc
deriving DecidableEq

/-- PyExn is a raised Python exception: its class and its str() message. -/
structure PyExn where
  cls : ExnClass
  msg : List Char
deriving DecidableEq

/-- catchesIOError e holds when an except IOError clause catches e
(RequestException subclasses IOError, which subclasses Exception). -/
def catchesIOError (e : PyExn) : Bool :=
  e.cls = ExnClass.requestExc || e.cls = ExnClass.ioErr

/-- HttpResponse models the requests response object: status code,
body bytes and declared content type. -/
structure HttpResponse where
  statusCode : Nat
  content : List Nat
  contentType : List Char
deriving DecidableEq

instance {α β : Type} [DecidableEq α] [DecidableEq β] : DecidableEq (Except α β) :=
  fun x y =>
    match x, y with
    | .ok a, .ok b =>
      if h : a = b then .isTrue (by rw [h]) else .isFalse (by simp [h])
    | .error a, .error b =>
      if h : a = b then .isTrue (by rw [h]) else .isFalse (by simp [h])
    | .ok _, .error _ => .isFalse (by simp)
    | .error _, .ok _ => .isFalse (by simp)

/-- RecEnv fixes the effectful world of one record: the result of the
fetch, of the decode, and which exception (if any) each remaining
fallible operation raises.  tb is the traceback text the outermost
handler would format. -/
structure RecEnv where
  preExc : Option PyExn
  fetch : Except PyExn HttpResponse
  ctypeExc : Option PyExn
  decode : Except PyExn PImage
  transformExc : Option PyExn
  saveFullExc : Option PyExn
  saveThumbExc : Option PyExn
  tb : List Char
deriving DecidableEq

/-- ExifInfo models the exif_info dictionary built at lines 226 to 233. -/
structure ExifInfo where
  fileName : List Char
  originalFileName : List Char
  width : Nat
  height : Nat
  dateTimeCreated : Option (List Char)
  dateTimeOriginal : Option (List Char)
deriving DecidableEq

/-- Outcome models the return contract of process_image: either the
result dictionary (exif info, status string, original size string) or
the error message of the failure. -/
inductive Outcome where
  | failure (msg : List Char)
  | success (info : ExifInfo) (status : List Char) (originalSize : List Char)
deriving DecidableEq

/-- lookupTag is dictionary lookup in an exif tag table. -/
def lookupTag : List (List Char × List Char) → List Char → Option (List Char)
  | [], _ => none
  | (k, v) :: rest, key => if k = key then some v else lookupTag rest key

/-- getExifDates models the date part of get_exif_data (lines 147 to 174):
DateTimeCreated from the DateTime tag; DateTimeOriginal from the
DateTimeOriginal tag, else the DateTimeDigitized tag.  A read failure is
swallowed by the handler at line 170 and is modelled as absent tags. -/
def getExifDates (img : PImage) : Option (List Char) × Option (List Char) :=
  (lookupTag img.exifTags ("DateTime".toList),
   match lookupTag img.exifTags ("DateTimeOriginal".toList) with
   | some v => some v
   | none => lookupTag img.exifTags ("DateTimeDigitized".toList))

/-- convertStep models lines 235 to 237: img.convert to RGB when the mode
is RGBA or P, otherwise the image is left as decoded. -/
def convertStep (img : PImage) : PImage :=
  if img.mode = "RGBA".toList || img.mode = "P".toList then
    { img with mode := "RGB".toList }
  else img

/-- roundAspect1Choice models Pillow round_aspect in the first branch of
Image.thumbnail: the candidate widths are the floor and the ceiling of
by0 * (w / h), the key of candidate n is the absolute difference between
the aspect w / h and n / by0, ties keep the floor, and the result is
clamped below by 1.  The real-number arithmetic is modelled exactly:
floor and ceiling of by0 * w / h are Nat floor and ceiling division,
and the key comparison is cross-multiplied to the integer comparison of
the absolute values of w * by0 - n * h. -/
def roundAspect1Choice (by0 w h : Nat) : Nat :=
  let f := by0 * w / h
  let c := (by0 * w + h - 1) / h
  let keyNum : Nat → Int := fun n => |(w * by0 : Int) - n * h|
  max (if keyNum f ≤ keyNum c then f else c) 1

/-- roundAspect2Choice models Pillow round_aspect in the second branch of
Image.thumbnail: the candidate heights are the floor and the ceiling of
bx / (w / h); the key of candidate n is 0 when n = 0 and otherwise the
absolute difference between the aspect and bx / n; ties keep the floor;
the result is clamped below by 1.  Exact arithmetic: when the floor f is 0
its key 0 is minimal, so the floor is kept; otherwise the key comparison
between f and c cross-multiplies to comparing the absolute value of
w * f - bx * h times c against the absolute value of w * c - bx * h
times f. -/
def roundAspect2Choice (bx w h : Nat) : Nat :=
  let f := bx * h / w
  let c := (bx * h + w - 1) / w
  let keyNum : Nat → Int := fun n => |(w * n : Int) - bx * h|
  max (if f = 0 then 0 else if keyNum f * c ≤ keyNum c * f then f else c) 1

/-- pilThumbnail models Pillow Image.thumbnail(size): no change when the
image already fits in the bound; otherwise reduce the larger-relative
dimension to the bound and round the other to preserve the aspect ratio.
The float comparison bx / by0 greater-or-equal w / h is cross-multiplied
to bx * h greater-or-equal w * by0. -/
def pilThumbnail (bx by0 : Nat) (img : PImage) : PImage :=
  if bx ≥ img.width && by0 ≥ img.height then img
  else if bx * img.height ≥ img.width * by0 then
    { img with width := roundAspect1Choice by0 img.width img.height, height := by0 }
  else
    { img with width := bx, height := roundAspect2Choice bx img.width img.height }

/-- fullSizeResize models lines 246 to 249: when limit_size is set and a
dimension exceeds self.fullsize_limit = (3840, 2160), thumbnail to that
bound and flag resized. -/
def fullSizeResize (limitSize : Bool) (img : PImage) : PImage × Bool :=
  if limitSize && (img.width > 3840 || img.height > 2160) then
    (pilThumbnail 3840 2160 img, true)
  else (img, false)

/-- stripExifImg models lines 252 to 255: Image.new of mode RGB at the
processed size, with the pixels pasted in; the fresh buffer carries no
exif container. -/
def stripExifImg (img : PImage) : PImage :=
  { mode := "RGB".toList, width := img.width, height := img.height, exifTags := [] }

/-- transformChain is the transform part of process_image in source
order: convert the mode (line 236), limit the full size (lines 246 to
249), strip the metadata (lines 252 to 255); paired with the resized
flag. -/
def transformChain (limitSize removeExif : Bool) (img : PImage) : PImage × Bool :=
  let img1 := convertStep img
  let pr := fullSizeResize limitSize img1
  ((if removeExif then stripExifImg pr.1 else pr.1), pr.2)

/-- strUnexpected is the prefix of the catch-all message of line 283. -/
def strUnexpected : List Char := "Unexpected error: ".toList

/-- unexpectedMsg is the full message of the catch-all handler at lines
281 to 283. -/
def unexpectedMsg (e : PyExn) (tb : List Char) : List Char :=
  strUnexpected ++ e.msg ++ "\nTraceback: ".toList ++ tb

/-- httpErrorMsg is the message of line 196. -/
def httpErrorMsg (code : Nat) : List Char :=
  "HTTP error: status code ".toList ++ natToChars code

/-- sizeStr renders the f-string width x height of line 240. -/
def sizeStr (w h : Nat) : List Char := natToChars w ++ 'x' :: natToChars h

/-- looksLikeImage models the content check of lines 207 to 214: the
declared content type starts with image/, or the first bytes carry a
JPEG, PNG or GIF signature. -/
def looksLikeImage (resp : HttpResponse) : Bool :=
  listStarts "image/".toList resp.contentType ||
    (let fb := resp.content.take 10
     listStarts [255, 216] fb || listStarts [137, 80, 78, 71] fb ||
       listStarts [71, 73, 70] fb)

/-- openBlock is the body of the with Image.open block (lines 221 to
276), with decode, transform and save effects taken from the
environment; its exceptions propagate to the except IOError clause. -/
def openBlock (limitSize removeExif : Bool) (env : RecEnv)
    (filename origName : List Char) : Except PyExn Outcome :=
  match env.decode with
  | .error e => .error e
  | .ok img =>
    let dates := getExifDates img
    let info : ExifInfo :=
      { fileName := filename, originalFileName := origName,
        width := img.width, height := img.height,
        dateTimeCreated := dates.1, dateTimeOriginal := dates.2 }
    let img1 := convertStep img
    let originalSize := sizeStr img1.width img1.height
    match env.transformExc with
    | some e => .error e
    | none =>
      let tr := transformChain limitSize removeExif img
      match env.saveFullExc with
      | some e => .ok (.failure ("Error saving fullsize image: ".toList ++ e.msg))
      | none =>
        let thumb := pilThumbnail 810 810 tr.1
        match env.saveThumbExc with
        | some e => .ok (.failure ("Error saving thumbnail: ".toList ++ e.msg))
        | none =>
          let st : List Char :=
            if tr.2 then "resized".toList else "original size".toList
          let _ := thumb
          .ok (.success info st originalSize)

/-- decodeStage wraps openBlock in the except IOError clause of line 278. -/
def decodeStage (limitSize removeExif : Bool) (env : RecEnv)
    (filename origName : List Char) : Except PyExn Outcome :=
  match openBlock limitSize removeExif env filename origName with
  | .ok o => .ok o
  | .error e =>
    if catchesIOError e then
      .ok (.failure ("Image processing error: ".toList ++ e.msg))
    else .error e

/-- contentStage is the advisory content check of lines 205 to 217: any
exception inside the check is swallowed and processing continues. -/
def contentStage (limitSize removeExif : Bool) (env : RecEnv)
    (filename origName : List Char) (resp : HttpResponse) : Except PyExn Outcome :=
  if env.ctypeExc.isSome then decodeStage limitSize removeExif env filename origName
  else if looksLikeImage resp then decodeStage limitSize removeExif env filename origName
  else
    .ok (.failure ("Response is not an image (Content-Type: ".toList ++
      resp.contentType ++ ")".toList))

/-- afterStatus is the rest of the fetch block once the status check of
line 195 has passed: the empty-body check of line 199 comes first. -/
def afterStatus (limitSize removeExif : Bool) (env : RecEnv)
    (filename origName : List Char) (resp : HttpResponse) : Except PyExn Outcome :=
  if resp.content.isEmpty then .ok (.failure ("Empty response from server".toList))
  else contentStage limitSize removeExif env filename origName resp

/-- fetchStage models lines 192 to 203: the requests.get call with its
except RequestException clause, the status-code check, and what follows. -/
def fetchStage (limitSize removeExif : Bool) (env : RecEnv)
    (filename origName : List Char) : Except PyExn Outcome :=
  match env.fetch with
  | .error e =>
    if e.cls = ExnClass.requestExc then
      .ok (.failure ("Network error: ".toList ++ e.msg))
    else .error e
  | .ok resp =>
    if resp.statusCode ≠ 200 then .ok (.failure (httpErrorMsg resp.statusCode))
    else afterStatus limitSize removeExif env filename origName resp

/-- processImageRaw is process_image without its outermost handler:
derive the filename (updating the sequence table), then run the staged
body; an exception no inner clause catches escapes as .error. -/
def processImageRaw (addSequence limitSize removeExif : Bool) (st : SeqState)
    (origName : List Char) (env : RecEnv) : Except PyExn Outcome × SeqState :=
  match env.preExc with
  | some e => (.error e, st)
  | none =>
    let ds := deriveFilename addSequence st origName
    (fetchStage limitSize removeExif env ds.1 origName, ds.2)

/-- processImage is process_image (lines 176 to 283): the raw body under
the outermost except Exception clause, which catches every exception
class and returns the Unexpected error failure. -/
def processImage (addSequence limitSize removeExif : Bool) (st : SeqState)
    (origName : List Char) (env : RecEnv) : Outcome × SeqState :=
  match processImageRaw addSequence limitSize removeExif st origName env with
  | (.ok o, st') => (o, st')
  | (.error e, st') => (.failure (unexpectedMsg e env.tb), st')

/-- batchLoop is the record loop of run (lines 75 to 97): each record is
processed with the current sequence table; a success appends its exif
info, a failure appends the pair of the original file name and the error
message; both lists keep input order. -/
def batchLoop (addSequence limitSize removeExif : Bool) :
    SeqState → List (List Char × RecEnv) →
    List ExifInfo × List (List Char × List Char)
  | _, [] => ([], [])
  | st, (name, env) :: rest =>
    let r := processImage addSequence limitSize removeExif st name env
    let tail := batchLoop addSequence limitSize removeExif r.2 rest
    match r.1 with
    | .success info _ _ => (info :: tail.1, tail.2)
    | .failure msg => (tail.1, (name, msg) :: tail.2)

/-- errorBanner is the first line written to processing_errors.txt
(line 105). -/
def errorBanner : List Char := "The following images failed to process:".toList

/-- failureLine renders one line of the failure report (line 107). -/
def failureLine (p : List Char × List Char) : List Char :=
  p.1 ++ ':' :: ' ' :: p.2

/-- missingColumnsMsg is the rejection message of line 48. -/
def missingColumnsMsg : List Char :=
  "CSV file missing required columns: 'File Name' and 'Image: URL'".toList

/-- fullsizeFolderName models lines 52 to 54. -/
def fullsizeFolderName (limitSize removeExif : Bool) : List Char :=
  (if limitSize then "4K-size".toList else "submitted-size".toList) ++
    (if removeExif then "-exifremoved".toList else [])

/-- thumbFolderName models lines 55 to 57. -/
def thumbFolderName (removeExif : Bool) : List Char :=
  if removeExif then "thumbnails-exifremoved".toList else "thumbnails".toList

/-- summaryMsg is the completion message of lines 113 to 115. -/
def summaryMsg (succ total failed : Nat) : List Char :=
  "Successfully processed ".toList ++ natToChars succ ++ " of ".toList ++
    natToChars total ++ " images".toList ++
    (if failed ≠ 0 then
      " (".toList ++ natToChars failed ++ " failed)".toList
     else [])

/-- RunResult is the observable outcome of one run of
ImageProcessorThread.run: the directories it created, the success and
failure lists, the contents of the two report files (none when the file
is not written), and the completion signal. -/
structure RunResult where
  dirsCreated : List (List Char)
  successes : List ExifInfo
  failures : List (List Char × List Char)
  metadataCsv : Option (List ExifInfo)
  errorLog : Option (List (List Char))
  completion : Bool × List Char
deriving DecidableEq

/-- runPipeline models ImageProcessorThread.run (lines 40 to 117) on an
already-parsed table: cols are the column names of the data frame, rows
the File Name values in input order, envs the per-record environments.
A table missing a required column is rejected at line 47 before the
directories of lines 59 to 63 are created and before any record is
processed; otherwise the loop runs, the metadata report is always
written, and the failure report only when a failure occurred. -/
def runPipeline (addSequence limitSize removeExif : Bool)
    (cols : List (List Char)) (rows : List (List Char)) (envs : List RecEnv) :
    RunResult :=
  if "File Name".toList ∈ cols ∧ "Image: URL".toList ∈ cols then
    let res := batchLoop addSequence limitSize removeExif [] (rows.zip envs)
    { dirsCreated := [fullsizeFolderName limitSize removeExif, thumbFolderName removeExif]
      successes := res.1
      failures := res.2
      metadataCsv := some res.1
      errorLog :=
        if res.2.isEmpty then none
        else some (errorBanner :: res.2.map failureLine)
      completion := (true, summaryMsg res.1.length rows.length res.2.length) }
  else
    { dirsCreated := [], successes := [], failures := [],
      metadataCsv := none, errorLog := none,
      completion := (false, missingColumnsMsg) }

theorem charOfNat_digit {d : Nat} (hd : d < 10) :
    (Char.ofNat (48 + d)).isDigit = true := by
  interval_cases d <;> decide

theorem mem_natToCharsCore {fuel n : Nat} {acc : List Char} {c : Char}
    (h : c ∈ natToCharsCore fuel n acc) : c.isDigit = true ∨ c ∈ acc := by
  induction fuel generalizing n acc with
  | zero => simp only [natToCharsCore] at h; exact .inr h
  | succ fuel ih =>
    simp only [natToCharsCore] at h
    by_cases hn : n < 10
    · simp only [if_pos hn, List.mem_cons] at h
      rcases h with h | h
      · exact .inl (h ▸ charOfNat_digit (Nat.mod_lt _ (by omega)))
      · exact .inr h
    · simp only [if_neg hn] at h
      rcases ih h with h | h
      · exact .inl h
      · rcases List.mem_cons.mp h with h | h
        · exact .inl (h ▸ charOfNat_digit (Nat.mod_lt _ (by omega)))
        · exact .inr h

theorem mem_natToChars {n : Nat} {c : Char} (h : c ∈ natToChars n) :
    c.isDigit = true := by
  rcases mem_natToCharsCore h with h | h
  · exact h
  · simp at h

theorem digit_ne_quote {c : Char} (h : c.isDigit = true) : c ≠ '"' := by
  intro he
  subst he
  simp [Char.isDigit] at h

theorem matchIdRest_mem {s ds rest : List Char}
    (h : matchIdRest s = some (ds, rest)) :
    (∀ c ∈ ds, c ∈ s) ∧ ∀ c ∈ rest, c ∈ s := by
  simp only [matchIdRest] at h
  split at h
  · exact absurd h (by simp)
  · split at h
    · split at h
      · split at h
        · exact absurd h (by simp)
        · rename_i heq _
          simp only [Option.some.injEq, Prod.mk.injEq] at h
          obtain ⟨h1, h2⟩ := h
          subst h1; subst h2
          constructor
          · exact fun c hc => (List.takeWhile_sublist _).subset hc
          · intro c hc
            have hrev : c ∈ s.dropWhile Char.isDigit := by
              have : c ∈ (s.dropWhile Char.isDigit).reverse := by
                rw [heq]
                exact List.mem_cons_of_mem _ (List.mem_reverse.mp hc)
              exact List.mem_reverse.mp this
            exact (List.dropWhile_sublist _).subset hrev
      · exact absurd h (by simp)
    · injection h with h'
      obtain ⟨h1, h2⟩ := Prod.mk.inj h'
      subst h1; subst h2
      exact ⟨fun c hc => (List.takeWhile_sublist _).subset hc,
        fun c hc => (List.dropWhile_sublist _).subset hc⟩

theorem rsplitDot_mem {l before after : List Char}
    (h : rsplitDot l = some (before, after)) :
    (∀ c ∈ before, c ∈ l) ∧ ∀ c ∈ after, c ∈ l := by
  unfold rsplitDot at h
  split at h
  · injection h with h'
    obtain ⟨h1, h2⟩ := Prod.mk.inj h'
    subst h1; subst h2
    constructor
    · intro c hc
      have : c ∈ l.reverse.drop (((l.reverse.takeWhile fun c => c ≠ '.').length) + 1) :=
        List.mem_reverse.mp hc
      exact List.mem_reverse.mp ((List.drop_sublist _ _).subset this)
    · intro c hc
      have : c ∈ l.reverse.takeWhile fun c => c ≠ '.' := List.mem_reverse.mp hc
      exact List.mem_reverse.mp ((List.takeWhile_sublist _).subset this)
  · exact absurd h (by simp)

theorem mem_padIdWithSequence {a : Bool} {st : SeqState} {s : List Char} {c : Char}
    (h : c ∈ (padIdWithSequence a st s).1) :
    c ∈ s ∨ c = '-' ∨ c = ' ' ∨ c = '.' ∨ c.isDigit = true := by
  unfold padIdWithSequence at h
  split at h
  · exact .inl h
  · split at h
    · exact .inl h
    · rename_i idNum rest heq
      split at h
      · rename_i title ext heq2
        simp only [List.mem_append, List.mem_cons] at h
        rcases h with ((h | h | h) | h | h) | h | h
        · exact .inl ((matchIdRest_mem heq).1 c h)
        · exact .inr (.inl h)
        · exact .inr (.inr (.inr (.inr (mem_natToChars h))))
        · exact .inr (.inr (.inl h))
        · have hc : c ∈ title := (List.dropWhile_sublist _).subset h
          exact .inl ((matchIdRest_mem heq).2 c ((rsplitDot_mem heq2).1 c hc))
        · exact .inr (.inr (.inr (.inl h)))
        · exact .inl ((matchIdRest_mem heq).2 c ((rsplitDot_mem heq2).2 c h))
      · rename_i heq2
        simp only [List.mem_append, List.mem_cons] at h
        rcases h with (h | h | h) | h | h
        · exact .inl ((matchIdRest_mem heq).1 c h)
        · exact .inr (.inl h)
        · exact .inr (.inr (.inr (.inr (mem_natToChars h))))
        · exact .inr (.inr (.inl h))
        · exact .inl ((matchIdRest_mem heq).2 c ((List.dropWhile_sublist _).subset h))

theorem lookupSeq_updateSeq (st : SeqState) (k : List Char) (v : Nat) :
    lookupSeq (updateSeq st k v) k = some v := by
  induction st with
  | nil => simp [updateSeq, lookupSeq]
  | cons p rest ih =>
    obtain ⟨k0, v0⟩ := p
    unfold updateSeq
    by_cases h : k0 = k
    · simp [h, lookupSeq]
    · simp [h, lookupSeq, ih]

/-- C1: for every input record, whatever the sequencing flag and the
current sequence table, the filename produced by filename derivation
contains none of the characters backslash / : * ? double-quote < > |. -/
theorem psnz_C1_filename_safe (a : Bool) (st : SeqState) (orig : List Char) :
    ∀ c ∈ (deriveFilename a st orig).1, isBadChar c = false ∧ c ≠ '"' := by
  intro c hc
  simp only [deriveFilename] at hc
  rcases List.mem_map.mp hc with ⟨x, hx, hfx⟩
  by_cases hb : isBadChar x
  · rw [if_pos hb] at hfx
    subst hfx
    exact ⟨by decide, by decide⟩
  · rw [if_neg hb] at hfx
    subst hfx
    refine ⟨by simpa using hb, ?_⟩
    rcases mem_padIdWithSequence hx with h | h | h | h | h
    · have := List.mem_filter.mp h
      simpa using this.2
    · subst h; decide
    · subst h; decide
    · subst h; decide
    · exact digit_ne_quote h

theorem psnz_C1_witness :
    isBadChar '1' = false ∧ '1' ≠ '"' :=
  psnz_C1_filename_safe true [] ("12\"3:a.jpg".toList) '1' (by decide)

theorem replaceBad_idem (t : List Char) : replaceBad (replaceBad t) = replaceBad t := by
  unfold replaceBad
  rw [List.map_map]
  apply List.map_congr_left
  intro a _
  by_cases ha : isBadChar a
  · simp [Function.comp, ha]
  · simp [Function.comp, ha]

theorem stripQuotes_replaceBad (t : List Char) :
    stripQuotes (replaceBad (stripQuotes t)) = replaceBad (stripQuotes t) := by
  apply List.filter_eq_self.mpr
  intro a ha
  rcases List.mem_map.mp ha with ⟨x, hx, hfx⟩
  have hxq : x ≠ '"' := by simpa using (List.mem_filter.mp hx).2
  by_cases hb : isBadChar x
  · rw [if_pos hb] at hfx; subst hfx; decide
  · rw [if_neg hb] at hfx; subst hfx; simpa using hxq

/-- C9: sanitization (strip double quotes, then substitute the invalid
characters) is idempotent: every sanitized string is a fixed point. -/
theorem psnz_C9_sanitize_idempotent (s : List Char) :
    sanitize (sanitize s) = sanitize s := by
  unfold sanitize
  rw [stripQuotes_replaceBad, replaceBad_idem]

theorem padIdWithSequence_state (st : SeqState) {s idNum rest : List Char}
    (h : matchIdRest s = some (idNum, rest)) :
    (padIdWithSequence true st s).2 =
      updateSeq st idNum ((lookupSeq st idNum).getD 1 + 1) := by
  simp only [padIdWithSequence, h]
  cases hr : rsplitDot rest with
  | none => simp [hr]
  | some p =>
    obtain ⟨t1, t2⟩ := p
    simp [hr]

/-- C6: with sequencing enabled, a derivation call whose raw name matches
the digit-prefix pattern reads the per-identifier counter (1 when the
identifier is new) and stores its successor, in processing order; in
particular the records 123-Sunset.jpg then 123-Dawn.jpg processed in that
order from a fresh table receive sequence numbers 1 and 2 against
identifier 123. -/
theorem psnz_C6_sequencing :
    (∀ (st : SeqState) (s idNum rest : List Char),
        matchIdRest s = some (idNum, rest) →
        (padIdWithSequence true st s).2 =
            updateSeq st idNum ((lookupSeq st idNum).getD 1 + 1) ∧
          lookupSeq (padIdWithSequence true st s).2 idNum =
            some ((lookupSeq st idNum).getD 1 + 1)) ∧
      (padIdWithSequence true [] ("123-Sunset.jpg".toList)).1 =
          "123-1 Sunset.jpg".toList ∧
      (padIdWithSequence true [] ("123-Sunset.jpg".toList)).2 =
          [("123".toList, 2)] ∧
      (padIdWithSequence true [("123".toList, 2)] ("123-Dawn.jpg".toList)).1 =
          "123-2 Dawn.jpg".toList ∧
      (padIdWithSequence true [("123".toList, 2)] ("123-Dawn.jpg".toList)).2 =
          [("123".toList, 3)] := by
  refine ⟨?_, by decide, by decide, by decide, by decide⟩
  intro st s idNum rest h
  exact ⟨padIdWithSequence_state st h,
    by rw [padIdWithSequence_state st h, lookupSeq_updateSeq]⟩

theorem psnz_C6_witness :
    (padIdWithSequence true [] ("9a".toList)).2 = updateSeq [] ("9".toList) 2 ∧
      lookupSeq (padIdWithSequence true [] ("9a".toList)).2 ("9".toList) = some 2 :=
  psnz_C6_sequencing.1 [] ("9a".toList) ("9".toList) ("a".toList) (by decide)

/-- C4 counterexample: the status code 204 lies in the 2xx range, yet the
check of line 195 (status_code different from 200) turns the record into
the HTTP-error failure instead of letting it proceed to the empty-body
check; the claim that every 2xx response passes the status check is
therefore false of the code. -/
theorem psnz_C4_counterexample :
    (200 ≤ 204 ∧ 204 < 300) ∧
      (processImage false false false [] ("a.jpg".toList)
          { preExc := none,
            fetch := .ok { statusCode := 204, content := [255, 216],
                           contentType := "image/jpeg".toList },
            ctypeExc := none,
            decode := .ok { mode := "RGB".toList, width := 10, height := 10,
                            exifTags := [] },
            transformExc := none, saveFullExc := none, saveThumbExc := none,
            tb := [] }).1 =
        .failure (httpErrorMsg 204) :=
  ⟨by decide, by decide⟩

/-- C4 (amended): for a record whose filename step raised nothing and
whose fetch returned a response, processing fails at the HTTP-status
check with the message HTTP error: status code N exactly when the status
code differs from 200 (so 2xx codes other than 200 are also rejected),
and a status of exactly 200 proceeds past the check to the empty-body
check that afterStatus begins with. -/
theorem psnz_C4_http_status (a ls re : Bool) (st : SeqState) (fn : List Char)
    (env : RecEnv) (resp : HttpResponse)
    (hpre : env.preExc = none) (hf : env.fetch = .ok resp) :
    (resp.statusCode ≠ 200 →
      (processImage a ls re st fn env).1 = .failure (httpErrorMsg resp.statusCode)) ∧
      (resp.statusCode = 200 →
        (processImageRaw a ls re st fn env).1 =
          afterStatus ls re env (deriveFilename a st fn).1 fn resp) := by
  have hraw : processImageRaw a ls re st fn env =
      (fetchStage ls re env (deriveFilename a st fn).1 fn,
        (deriveFilename a st fn).2) := by
    unfold processImageRaw
    rw [hpre]
  have hfs : fetchStage ls re env (deriveFilename a st fn).1 fn =
      (if resp.statusCode ≠ 200 then .ok (.failure (httpErrorMsg resp.statusCode))
       else afterStatus ls re env (deriveFilename a st fn).1 fn resp) := by
    unfold fetchStage
    rw [hf]
  constructor
  · intro hne
    unfold processImage
    rw [hraw, hfs, if_pos hne]
  · intro h200
    rw [hraw, hfs, if_neg (by simp [h200])]

theorem psnz_C4_witness :
    (processImage false false false [] ("a.jpg".toList)
        { preExc := none,
          fetch := .ok { statusCode := 500, content := [],
                         contentType := [] },
          ctypeExc := none, decode := .error ⟨ExnClass.ioErr, []⟩,
          transformExc := none, saveFullExc := none, saveThumbExc := none,
          tb := [] }).1 =
      .failure (httpErrorMsg 500) :=
  (psnz_C4_http_status false false false [] ("a.jpg".toList) _ _ rfl rfl).1
    (by decide)

/-- Modelled from the spec: which PIL color modes carry an alpha channel
or a palette.  Among the documented modes, RGBA, RGBa, LA, La and PA
carry an alpha channel and P is the palette mode; this predicate is the
spec-side reading of the phrase, for comparison with the code's own
conversion test. -/
def modeCarriesAlphaOrPalette (m : List Char) : Bool :=
  m = "RGBA".toList || m = "RGBa".toList || m = "LA".toList ||
    m = "La".toList || m = "PA".toList || m = "P".toList

/-- C5 counterexample: a decoded image of mode LA carries an alpha
channel, yet the conversion test of line 236 (mode RGBA or P) leaves it
unconverted through the whole transform, so the claim quantified over
every alpha-or-palette mode is false of the code. -/
theorem psnz_C5_counterexample :
    modeCarriesAlphaOrPalette ("LA".toList) = true ∧
      convertStep { mode := "LA".toList, width := 100, height := 50, exifTags := [] } =
        { mode := "LA".toList, width := 100, height := 50, exifTags := [] } ∧
      ("LA".toList : List Char) ≠ "RGB".toList ∧
      (transformChain true false
          { mode := "LA".toList, width := 100, height := 50, exifTags := [] }).1.mode =
        "LA".toList := by
  refine ⟨by decide, by decide, by decide, by decide⟩

theorem pilThumbnail_mode (bx by0 : Nat) (img : PImage) :
    (pilThumbnail bx by0 img).mode = img.mode := by
  unfold pilThumbnail
  split
  · rfl
  · split <;> rfl

theorem fullSizeResize_mode (ls : Bool) (img : PImage) :
    (fullSizeResize ls img).1.mode = img.mode := by
  unfold fullSizeResize
  split
  · exact pilThumbnail_mode 3840 2160 img
  · rfl

/-- C5 (amended): for every decoded image whose mode is RGBA or P — the
two modes the code tests for — the transform converts it to plain RGB as
its first step, before the resize and the metadata-stripping steps, and
the image stays three-channel through the rest of the transform. -/
theorem psnz_C5_convert (ls re : Bool) (img : PImage)
    (h : img.mode = "RGBA".toList ∨ img.mode = "P".toList) :
    (convertStep img).mode = "RGB".toList ∧
      (transformChain ls re img).1.mode = "RGB".toList := by
  have h1 : (convertStep img).mode = "RGB".toList := by
    unfold convertStep
    rcases h with h | h <;> simp [h]
  refine ⟨h1, ?_⟩
  unfold transformChain
  cases re with
  | true => simp [stripExifImg]
  | false => simpa [fullSizeResize_mode] using h1

theorem psnz_C5_witness :
    (convertStep { mode := "RGBA".toList, width := 4, height := 4, exifTags := [] }).mode =
        "RGB".toList ∧
      (transformChain true true
          { mode := "RGBA".toList, width := 4, height := 4, exifTags := [] }).1.mode =
        "RGB".toList :=
  psnz_C5_convert true true _ (by decide)

theorem listStarts_append {α : Type} [DecidableEq α] (p r : List α) :
    listStarts p (p ++ r) = true := by
  induction p with
  | nil => rfl
  | cons a as ih => simp [listStarts, ih]

theorem batchLoop_length (a ls re : Bool) (st : SeqState)
    (l : List (List Char × RecEnv)) :
    (batchLoop a ls re st l).1.length + (batchLoop a ls re st l).2.length =
      l.length := by
  induction l generalizing st with
  | nil => rfl
  | cons p rest ih =>
    obtain ⟨name, env⟩ := p
    simp only [batchLoop]
    cases h : (processImage a ls re st name env).1 <;>
      simp [h, ← ih (processImage a ls re st name env).2] <;> omega

/-- C2: every exception the named checks of process_image do not handle
is caught by the outermost handler and turned into a Failure whose
message starts with Unexpected error: (first part), and the batch loop
yields one success or one failure per record, so no per-record failure
shortens the batch (second part). -/
theorem psnz_C2_failures_caught :
    (∀ (a ls re : Bool) (st : SeqState) (fn : List Char) (env : RecEnv) (e : PyExn),
        (processImageRaw a ls re st fn env).1 = .error e →
        (processImage a ls re st fn env).1 = .failure (unexpectedMsg e env.tb) ∧
          listStarts strUnexpected (unexpectedMsg e env.tb) = true) ∧
      ∀ (a ls re : Bool) (st : SeqState) (l : List (List Char × RecEnv)),
        (batchLoop a ls re st l).1.length + (batchLoop a ls re st l).2.length =
          l.length := by
  constructor
  · intro a ls re st fn env e h
    constructor
    · unfold processImage
      rw [show processImageRaw a ls re st fn env =
          (.error e, (processImageRaw a ls re st fn env).2) from by rw [← h]]
    · exact listStarts_append strUnexpected _
  · exact batchLoop_length

theorem psnz_C2_witness :
    (processImage false false false [] ("a.jpg".toList)
        { preExc := none,
          fetch := .error ⟨ExnClass.otherExc, "boom".toList⟩,
          ctypeExc := none, decode := .error ⟨ExnClass.ioErr, []⟩,
          transformExc := none, saveFullExc := none, saveThumbExc := none,
          tb := "tb".toList }).1 =
        .failure (unexpectedMsg ⟨ExnClass.otherExc, "boom".toList⟩ ("tb".toList)) ∧
      listStarts strUnexpected
          (unexpectedMsg ⟨ExnClass.otherExc, "boom".toList⟩ ("tb".toList)) = true ∧
      (batchLoop false false false [] []).1.length +
          (batchLoop false false false [] []).2.length = 0 :=
  ⟨(psnz_C2_failures_caught.1 false false false [] ("a.jpg".toList) _ _ (by decide)).1,
   (psnz_C2_failures_caught.1 false false false [] ("a.jpg".toList)
      { preExc := none,
        fetch := .error ⟨ExnClass.otherExc, "boom".toList⟩,
        ctypeExc := none, decode := .error ⟨ExnClass.ioErr, []⟩,
        transformExc := none, saveFullExc := none, saveThumbExc := none,
        tb := "tb".toList } _ (by decide)).2,
   psnz_C2_failures_caught.2 false false false [] []⟩

/-- C3: a table missing either required column is rejected with the
descriptive message of line 48 before any directory is created, any
record is processed, or any report is written. -/
theorem psnz_C3_missing_columns (a ls re : Bool) (cols : List (List Char))
    (rows : List (List Char)) (envs : List RecEnv)
    (h : "File Name".toList ∉ cols ∨ "Image: URL".toList ∉ cols) :
    runPipeline a ls re cols rows envs =
      { dirsCreated := [], successes := [], failures := [],
        metadataCsv := none, errorLog := none,
        completion := (false, missingColumnsMsg) } := by
  unfold runPipeline
  rw [if_neg]
  intro hc
  rcases h with h | h
  · exact h hc.1
  · exact h hc.2

theorem psnz_C3_witness :
    runPipeline false false false [("File Name".toList)]
        [("x.jpg".toList)] [] =
      { dirsCreated := [], successes := [], failures := [],
        metadataCsv := none, errorLog := none,
        completion := (false, missingColumnsMsg) } :=
  psnz_C3_missing_columns false false false _ _ _ (by decide)

/-- C10: with sequencing enabled, the per-identifier counter is consumed
by the filename derivation, before the fetch is attempted: whatever the
record environment does afterwards (including a fetch failure), the
sequence table leaves the call incremented (first part); concretely, a
404 record named 7-A.jpg consumes number 1, and a following record
7-B.jpg with the same identifier is derived as 7-2 B.jpg, leaving the
gap (second part). -/
theorem psnz_C10_counter_before_fetch :
    (∀ (ls re : Bool) (st : SeqState) (fn : List Char) (env : RecEnv)
        (idNum rest : List Char),
        env.preExc = none →
        matchIdRest (stripQuotes fn) = some (idNum, rest) →
        (processImage true ls re st fn env).2 =
          updateSeq st idNum ((lookupSeq st idNum).getD 1 + 1)) ∧
      (processImage true false false [] ("7-A.jpg".toList)
          { preExc := none,
            fetch := .ok { statusCode := 404, content := [255, 216],
                           contentType := "text/html".toList },
            ctypeExc := none,
            decode := .error ⟨ExnClass.ioErr, []⟩,
            transformExc := none, saveFullExc := none, saveThumbExc := none,
            tb := [] }).1 = .failure (httpErrorMsg 404) ∧
      (processImage true false false [] ("7-A.jpg".toList)
          { preExc := none,
            fetch := .ok { statusCode := 404, content := [255, 216],
                           contentType := "text/html".toList },
            ctypeExc := none,
            decode := .error ⟨ExnClass.ioErr, []⟩,
            transformExc := none, saveFullExc := none, saveThumbExc := none,
            tb := [] }).2 = [("7".toList, 2)] ∧
      (processImage true false false [("7".toList, 2)] ("7-B.jpg".toList)
          { preExc := none,
            fetch := .ok { statusCode := 200, content := [255, 216],
                           contentType := "image/jpeg".toList },
            ctypeExc := none,
            decode := .ok { mode := "RGB".toList, width := 10, height := 10,
                            exifTags := [] },
            transformExc := none, saveFullExc := none, saveThumbExc := none,
            tb := [] }).1 =
        .success
          { fileName := "7-2 B.jpg".toList,
            originalFileName := "7-B.jpg".toList,
            width := 10, height := 10,
            dateTimeCreated := none, dateTimeOriginal := none }
          ("original size".toList) ("10x10".toList) := by
  refine ⟨?_, by decide, by decide, by decide⟩
  intro ls re st fn env idNum rest hpre hm
  have hd : (deriveFilename true st fn).2 =
      updateSeq st idNum ((lookupSeq st idNum).getD 1 + 1) := by
    unfold deriveFilename
    exact padIdWithSequence_state st hm
  have hraw : processImageRaw true ls re st fn env =
      (fetchStage ls re env (deriveFilename true st fn).1 fn,
        (deriveFilename true st fn).2) := by
    unfold processImageRaw
    rw [hpre]
  unfold processImage
  rw [hraw]
  cases hF : fetchStage ls re env (deriveFilename true st fn).1 fn <;>
    simpa [hF] using hd

theorem psnz_C10_witness :
    (processImage true false false [] ("12.png".toList)
        { preExc := none,
          fetch := .error ⟨ExnClass.requestExc, "timeout".toList⟩,
          ctypeExc := none, decode := .error ⟨ExnClass.ioErr, []⟩,
          transformExc := none, saveFullExc := none, saveThumbExc := none,
          tb := [] }).2 =
      updateSeq [] ("12".toList) 2 :=
  psnz_C10_counter_before_fetch.1 false false [] ("12.png".toList) _
    ("12".toList) (".png".toList) rfl (by decide)

/-- C8: for every accepted table, the failure report exists exactly when
some record failed; when it exists it is the fixed banner line followed
by one line name-colon-space-message per failed record; the failure list
is the batch loop's, which records each failed record under its original
(pre-sanitization) file name in input order (last part: the loop
prepends exactly one entry per failed record, in encounter order). -/
theorem psnz_C8_failure_report (a ls re : Bool) (cols : List (List Char))
    (rows : List (List Char)) (envs : List RecEnv)
    (h1 : "File Name".toList ∈ cols) (h2 : "Image: URL".toList ∈ cols) :
    ((runPipeline a ls re cols rows envs).errorLog = none ↔
        (runPipeline a ls re cols rows envs).failures = []) ∧
      ((runPipeline a ls re cols rows envs).failures ≠ [] →
        (runPipeline a ls re cols rows envs).errorLog =
          some (errorBanner ::
            (runPipeline a ls re cols rows envs).failures.map failureLine)) ∧
      (runPipeline a ls re cols rows envs).failures =
        (batchLoop a ls re [] (rows.zip envs)).2 ∧
      ∀ (st : SeqState) (name : List Char) (env : RecEnv)
        (restL : List (List Char × RecEnv)) (msg : List Char),
        (processImage a ls re st name env).1 = .failure msg →
        (batchLoop a ls re st ((name, env) :: restL)).2 =
          (name, msg) ::
            (batchLoop a ls re (processImage a ls re st name env).2 restL).2 := by
  have hrun : runPipeline a ls re cols rows envs =
      { dirsCreated := [fullsizeFolderName ls re, thumbFolderName re]
        successes := (batchLoop a ls re [] (rows.zip envs)).1
        failures := (batchLoop a ls re [] (rows.zip envs)).2
        metadataCsv := some (batchLoop a ls re [] (rows.zip envs)).1
        errorLog :=
          if (batchLoop a ls re [] (rows.zip envs)).2.isEmpty then none
          else some (errorBanner ::
            (batchLoop a ls re [] (rows.zip envs)).2.map failureLine)
        completion := (true, summaryMsg (batchLoop a ls re [] (rows.zip envs)).1.length
          rows.length (batchLoop a ls re [] (rows.zip envs)).2.length) } := by
    unfold runPipeline
    rw [if_pos ⟨h1, h2⟩]
  refine ⟨?_, ?_, ?_, ?_⟩
  · rw [hrun]
    by_cases he : (batchLoop a ls re [] (rows.zip envs)).2 = [] <;> simp [he]
  · intro hne
    rw [hrun] at hne ⊢
    simp only at hne ⊢
    rw [if_neg (by simpa using hne)]
  · rw [hrun]
  · intro st name env restL msg hf
    simp only [batchLoop, hf]

theorem psnz_C8_witness :
    (runPipeline false false false
          ["File Name".toList, "Image: URL".toList] ["x.jpg".toList]
          [{ preExc := none,
             fetch := .ok { statusCode := 404, content := [1],
                            contentType := "text/html".toList },
             ctypeExc := none, decode := .error ⟨ExnClass.ioErr, []⟩,
             transformExc := none, saveFullExc := none, saveThumbExc := none,
             tb := [] }]).errorLog =
      some (errorBanner ::
        (runPipeline false false false
            ["File Name".toList, "Image: URL".toList] ["x.jpg".toList]
            [{ preExc := none,
               fetch := .ok { statusCode := 404, content := [1],
                              contentType := "text/html".toList },
               ctypeExc := none, decode := .error ⟨ExnClass.ioErr, []⟩,
               transformExc := none, saveFullExc := none, saveThumbExc := none,
               tb := [] }]).failures.map failureLine) :=
  (psnz_C8_failure_report false false false _ _ _ (by decide) (by decide)).2.1
    (by decide)

theorem natDiv_bounds (a h : Nat) (hh : 0 < h) :
    a / h * h ≤ a ∧ a < a / h * h + h := by
  refine ⟨Nat.div_mul_le_self a h, ?_⟩
  have e : a % h + h * (a / h) = a := Nat.mod_add_div a h
  have m : a % h < h := Nat.mod_lt a hh
  calc a = a % h + h * (a / h) := e.symm
    _ < h + h * (a / h) := Nat.add_lt_add_right m _
    _ = a / h * h + h := by ring

theorem natCeil_lower (a h : Nat) (hh : 0 < h) : a ≤ (a + h - 1) / h * h := by
  have hb := (natDiv_bounds (a + h - 1) h hh).2
  set q := (a + h - 1) / h * h with hq
  omega

theorem roundAspect1Choice_cases (by0 w h : Nat) :
    ∃ n, (n = by0 * w / h ∨ n = (by0 * w + h - 1) / h) ∧
      roundAspect1Choice by0 w h = max n 1 := by
  simp only [roundAspect1Choice]
  split
  · exact ⟨_, .inl rfl, rfl⟩
  · exact ⟨_, .inr rfl, rfl⟩

theorem roundAspect2Choice_cases (bx w h : Nat) :
    ∃ n, (n = bx * h / w ∨ n = (bx * h + w - 1) / w) ∧
      roundAspect2Choice bx w h = max n 1 := by
  simp only [roundAspect2Choice]
  split
  · rename_i hf
    exact ⟨bx * h / w, .inl rfl, by rw [hf]⟩
  · split
    · exact ⟨_, .inl rfl, rfl⟩
    · exact ⟨_, .inr rfl, rfl⟩

theorem thumb_branch1 (w h : Nat) (hw : 0 < w) (hh : 0 < h)
    (hbr : 3840 * h ≥ w * 2160) :
    roundAspect1Choice 2160 w h ≤ 3840 ∧
      roundAspect1Choice 2160 w h * h ≤ 2160 * w + max w h ∧
      2160 * w ≤ roundAspect1Choice 2160 w h * h + max w h := by
  obtain ⟨n, hn, hres⟩ := roundAspect1Choice_cases 2160 w h
  have hMh : h ≤ max w h := Nat.le_max_right w h
  have hMw : w ≤ max w h := Nat.le_max_left w h
  have key1 : n * h ≤ 2160 * w + h - 1 := by
    rcases hn with hn | hn <;> subst hn
    · have := Nat.div_mul_le_self (2160 * w) h
      omega
    · exact Nat.div_mul_le_self _ _
  have key2 : 2160 * w < n * h + h := by
    rcases hn with hn | hn <;> subst hn
    · exact (natDiv_bounds (2160 * w) h hh).2
    · have := natCeil_lower (2160 * w) h hh
      omega
  have hn3840 : n ≤ 3840 := by
    have hlt : n * h < 3841 * h := by
      set nh := n * h with hnh
      omega
    have := lt_of_mul_lt_mul_right hlt (Nat.zero_le h)
    omega
  rw [hres]
  rcases Nat.eq_zero_or_pos n with h0 | h1
  · subst h0
    simp only [Nat.zero_mul] at key1 key2
    simp only [Nat.max_eq_right (by omega : (0 : Nat) ≤ 1)]
    omega
  · rw [Nat.max_eq_left h1]
    refine ⟨hn3840, ?_, ?_⟩ <;>
      · set nh := n * h with hnh
        omega

theorem thumb_branch2 (w h : Nat) (hw : 0 < w) (hh : 0 < h)
    (hbr : 3840 * h < w * 2160) :
    roundAspect2Choice 3840 w h ≤ 2160 ∧
      3840 * h ≤ roundAspect2Choice 3840 w h * w + max w h ∧
      roundAspect2Choice 3840 w h * w ≤ 3840 * h + max w h := by
  obtain ⟨n, hn, hres⟩ := roundAspect2Choice_cases 3840 w h
  have hMh : h ≤ max w h := Nat.le_max_right w h
  have hMw : w ≤ max w h := Nat.le_max_left w h
  have key1 : n * w ≤ 3840 * h + w - 1 := by
    rcases hn with hn | hn <;> subst hn
    · have := Nat.div_mul_le_self (3840 * h) w
      omega
    · exact Nat.div_mul_le_self _ _
  have key2 : 3840 * h < n * w + w := by
    rcases hn with hn | hn <;> subst hn
    · exact (natDiv_bounds (3840 * h) w hw).2
    · have := natCeil_lower (3840 * h) w hw
      omega
  have hn2160 : n ≤ 2160 := by
    have hlt : n * w < 2161 * w := by
      set nw := n * w with hnw
      omega
    have := lt_of_mul_lt_mul_right hlt (Nat.zero_le w)
    omega
  rw [hres]
  rcases Nat.eq_zero_or_pos n with h0 | h1
  · subst h0
    simp only [Nat.zero_mul] at key1 key2
    simp only [Nat.max_eq_right (by omega : (0 : Nat) ≤ 1)]
    omega
  · rw [Nat.max_eq_left h1]
    refine ⟨hn2160, ?_, ?_⟩ <;>
      · set nw := n * w with hnw
        omega

/-- C7: with the limit flag set, a decoded image exceeding the 3840 by
2160 bound is resized with the flag set, both output dimensions are
within the bound, and the aspect ratio is preserved within rounding (the
cross products of the new and old dimensions differ by at most the
larger original dimension); an image already within the bound passes
through unchanged with the flag clear. -/
theorem psnz_C7_resize (img : PImage) (hw : 0 < img.width) (hh : 0 < img.height) :
    ((3840 < img.width ∨ 2160 < img.height) →
      (fullSizeResize true img).2 = true ∧
        (fullSizeResize true img).1.width ≤ 3840 ∧
        (fullSizeResize true img).1.height ≤ 2160 ∧
        |((fullSizeResize true img).1.width : Int) * img.height -
            ((fullSizeResize true img).1.height : Int) * img.width| ≤
          (max img.width img.height : Int)) ∧
      ((img.width ≤ 3840 ∧ img.height ≤ 2160) →
        fullSizeResize true img = (img, false)) := by
  constructor
  · intro hbig
    have hcond : (true && (decide (img.width > 3840) || decide (img.height > 2160)))
        = true := by
      simp only [Bool.true_and, Bool.or_eq_true, decide_eq_true_eq]
      exact hbig
    have hng : ¬((decide (3840 ≥ img.width) && decide (2160 ≥ img.height)) = true) := by
      intro hcon
      simp only [Bool.and_eq_true, decide_eq_true_eq] at hcon
      rcases hbig with h | h <;> omega
    unfold fullSizeResize
    rw [if_pos hcond]
    unfold pilThumbnail
    rw [if_neg hng]
    by_cases hbr : 3840 * img.height ≥ img.width * 2160
    · rw [if_pos hbr]
      obtain ⟨b1, b2, b3⟩ := thumb_branch1 img.width img.height hw hh hbr
      refine ⟨rfl, b1, by norm_num, ?_⟩
      rw [abs_sub_le_iff]
      constructor <;>
        · push_cast
          zify at b2 b3
          linarith
    · rw [if_neg hbr]
      push_neg at hbr
      obtain ⟨b1, b2, b3⟩ := thumb_branch2 img.width img.height hw hh hbr
      refine ⟨rfl, by norm_num, b1, ?_⟩
      rw [abs_sub_le_iff]
      constructor <;>
        · push_cast
          zify at b2 b3
          linarith
  · intro hsmall
    have hcond : ¬((true && (decide (img.width > 3840) || decide (img.height > 2160)))
        = true) := by
      simp only [Bool.true_and, Bool.or_eq_true, decide_eq_true_eq]
      omega
    unfold fullSizeResize
    rw [if_neg hcond]

/-- imgLarge is the 5000 by 3000 example image of the resize policy. -/
def imgLarge : PImage :=
  { mode := "RGB".toList, width := 5000, height := 3000, exifTags := [] }

/-- imgSmall is the 1000 by 800 example image of the resize policy. -/
def imgSmall : PImage :=
  { mode := "RGB".toList, width := 1000, height := 800, exifTags := [] }

theorem psnz_C7_witness :
    ((fullSizeResize true imgLarge).2 = true ∧
      (fullSizeResize true imgLarge).1.width ≤ 3840 ∧
      (fullSizeResize true imgLarge).1.height ≤ 2160 ∧
      |((fullSizeResize true imgLarge).1.width : Int) * imgLarge.height -
          ((fullSizeResize true imgLarge).1.height : Int) * imgLarge.width| ≤
        (max imgLarge.width imgLarge.height : Int)) ∧
      fullSizeResize true imgSmall = (imgSmall, false) :=
  ⟨(psnz_C7_resize imgLarge (by decide) (by decide)).1 (by decide),
   (psnz_C7_resize imgSmall (by decide) (by decide)).2 (by decide)⟩

end PSNZ
